import Mathlib

/-!
Verification development for the ai-face-recognition repository.

The repository's recurring core is a vector identity index built on the
Annoy approximate-nearest-neighbor engine: `convert.py` enrolls embeddings
by fully rebuilding the index, `app.py` serves an HTTP matching endpoint,
and `app-command-line.py` is an interactive variant with a Euclidean
metric.  This file shallowly embeds those parts of the source and proves
or refutes the specification claims about them.

Modelling conventions:
- Python floats are modelled as rationals; all the arithmetic the claims
  touch (squares, min, max, division by constants, comparisons) is exact.
- An `AnnoyIndex` is modelled as its dimension, metric string and the list
  of `add_item` calls made on it, most recent first.  Annoy overwrites the
  storage at a slot on a repeated `add_item`, which the first-match lookup
  `lookupSlot` reproduces; `get_n_items` returns max added id + 1, which
  `AnnoyIndex.nItems` reproduces; `get_item_vector` on a never-written
  slot reads zero-initialised storage, hence the zero-vector default.
- External effects (file system, SQLite, the FaceNet/MTCNN and
  face_recognition embedding oracles, the ANN search itself) enter as
  explicit parameters or as `FileState` values; the SQLite face_id update
  in `convert.py` has no bearing on the index or map files and is elided.
- Exceptions are modelled by explicit early returns mirroring the
  try/except structure of the source.
-/

set_option maxRecDepth 40000

namespace FaceRec

abbrev Vec := List ℚ

/-- State of a file on disk: missing, present but unreadable/unparseable,
or present with parsed content. -/
inductive FileState (α : Type) where
  | absent
  | corrupt
  | good (content : α)
deriving DecidableEq

/-- First-match lookup in a slot-keyed association list.  Models both
Python dict access (`id_map.get`, unique keys) and reads of Annoy's
per-slot storage (most recent write listed first). -/
def lookupSlot {α : Type} : List (Nat × α) → Nat → Option α
  | [], _ => none
  | p :: rest, i => if p.1 = i then some p.2 else lookupSlot rest i

/-- Reverse lookup `user_id_to_annoy_id.get(user_id)`: the reverse dict is
built by `{v: int(k) for k, v in id_map.items()}`, so a later entry for the
same user wins; hence the last matching slot is returned. -/
def keyToSlot : List (Nat × String) → String → Option Nat
  | [], _ => none
  | p :: rest, k =>
    match keyToSlot rest k with
    | some s => some s
    | none => if p.2 = k then some p.1 else none

/-- Python dict update `id_map[str(s)] = k`: update in place when the slot
key exists, append at the end otherwise. -/
def mapSet (m : List (Nat × String)) (s : Nat) (k : String) : List (Nat × String) :=
  if m.any (fun p => p.1 == s) then m.map (fun p => if p.1 = s then (s, k) else p)
  else m ++ [(s, k)]

/-- Model of an `AnnoyIndex(dim, metric)` object. -/
structure AnnoyIndex where
  dim : Nat
  metric : String
  items : List (Nat × Vec)
deriving DecidableEq

/-- `AnnoyIndex(dim, metric)` constructor: a fresh, empty index. -/
def newAnnoy (d : Nat) (metric : String) : AnnoyIndex := ⟨d, metric, []⟩

/-- Annoy `get_n_items()`: one past the largest id ever passed to
`add_item`, 0 for a fresh index. -/
def AnnoyIndex.nItems (idx : AnnoyIndex) : Nat :=
  idx.items.foldr (fun p n => max (p.1 + 1) n) 0

/-- Annoy `get_item_vector(i)`: the vector last written at slot i, or the
zero-initialised storage of an untouched slot. -/
def AnnoyIndex.getItemVector (idx : AnnoyIndex) (i : Nat) : Vec :=
  (lookupSlot idx.items i).getD (List.replicate idx.dim 0)

/-- Annoy `add_item(i, v)` after its length check has passed: record the
write; `lookupSlot` makes it shadow any earlier write at the same slot. -/
def AnnoyIndex.addItem (idx : AnnoyIndex) (i : Nat) (v : Vec) : AnnoyIndex :=
  { idx with items := (i, v) :: idx.items }

/-- The on-disk persisted pair shared by convert.py and app.py:
`database_foto_vector/face_vectors.ann` and
`database_foto_vector/face_id_map.json`. -/
structure PersistedState where
  indexFile : FileState AnnoyIndex
  mapFile : FileState (List (Nat × String))
deriving DecidableEq

namespace Convert

/-- convert.py: `VECTOR_DIMENSION = 128`. -/
def VECTOR_DIMENSION : Nat := 128

/-- convert.py: `METRIC = "angular"`. -/
def METRIC : String := "angular"

/-- convert.py: `N_TREES = 10`. -/
def N_TREES : Nat := 10

/-- convert.py `load_id_map` (lines 103-122): parse the JSON map file;
if it is absent, or reading/parsing raises, fall back to an empty map.
The derived reverse dict `user_id_to_annoy_id` is recomputed on demand
via `keyToSlot`. -/
def load_id_map (st : PersistedState) : List (Nat × String) :=
  match st.mapFile with
  | FileState.good m => m
  | _ => []

/-- One iteration of the copy loop in `convert_and_store_photo`
(lines 177-182).  The Bool is false once an exception has been raised;
after that the remaining iterations are skipped (control has left the
loop) and the partially filled temporary index is retained, exactly as
the enclosing try/except does.  `add_item` raises when the vector length
differs from the index dimension. -/
def copyStep (old : AnnoyIndex) (u : String) (acc : AnnoyIndex × Bool)
    (p : Nat × String) : AnnoyIndex × Bool :=
  if acc.2 = false then acc
  else if p.2 = u then acc
  else if (old.getItemVector p.1).length = acc.1.dim then
    (acc.1.addItem p.1 (old.getItemVector p.1), true)
  else (acc.1, false)

/-- The copy loop of `convert_and_store_photo` (lines 177-182): for every
(slot, key) entry of the loaded id map whose key differs from the user
being enrolled, copy that slot's vector verbatim from the old index into
the fresh temporary index. -/
def copyOld (old : AnnoyIndex) (idMap : List (Nat × String)) (u : String) :
    AnnoyIndex × Bool :=
  idMap.foldl (copyStep old u) (newAnnoy VECTOR_DIMENSION METRIC, true)

/-- Exception-free rendering of the copy loop, used to state what
`copyOld` computes when no iteration raises. -/
def copyPureFrom (g : Nat → Vec) (u : String) (acc : AnnoyIndex) :
    List (Nat × String) → AnnoyIndex
  | [] => acc
  | p :: rest =>
    if p.2 = u then copyPureFrom g u acc rest
    else copyPureFrom g u (acc.addItem p.1 (g p.1)) rest

/-- The temporary index produced by an exception-free copy loop. -/
def copyPure (old : AnnoyIndex) (idMap : List (Nat × String)) (u : String) :
    AnnoyIndex :=
  copyPureFrom old.getItemVector u (newAnnoy VECTOR_DIMENSION METRIC) idMap

/-- The `get_n_items` value of the temporary index after the copy loop:
a pure fold over the id map entries whose key differs from the enrolled
user. -/
def slotBound (u : String) : Nat → List (Nat × String) → Nat
  | n, [] => n
  | n, p :: rest =>
    if p.2 = u then slotBound u n rest else slotBound u (max (p.1 + 1) n) rest

/-- Disk effect of `annoy_index.save(ANNOY_INDEX_PATH)`: the built
structure replaces the structure file. -/
def writeIndexFile (idx : AnnoyIndex) (s : PersistedState) : PersistedState :=
  { s with indexFile := FileState.good idx }

/-- Disk effect of `open(ANNOY_ID_MAP_PATH, "w")`: opening for writing
truncates the live map file before anything is written. -/
def truncMapFile (s : PersistedState) : PersistedState :=
  { s with mapFile := FileState.corrupt }

/-- Disk effect of `json.dump(id_map, f)` completing. -/
def writeMapFile (m : List (Nat × String)) (s : PersistedState) : PersistedState :=
  { s with mapFile := FileState.good m }

/-- convert.py `save_annoy_index_and_map` (lines 124-142).  The primitive
disk effects, in program order, are: write the built structure file
(skipped for an empty index), truncate the map file, and write the JSON
map.  `budget` injects a failure: `some k` lets the first k primitive
effects take hold and raises at the next one, which the except block
turns into a False return; `none` is the failure-free run.  There is no
write-to-temp-and-rename step in the source: each effect lands directly
on the live file. -/
def save_annoy_index_and_map (budget : Option Nat) (fs : PersistedState)
    (idx : AnnoyIndex) (m : List (Nat × String)) : Bool × PersistedState :=
  let steps : List (PersistedState → PersistedState) :=
    (if 0 < idx.nItems then [writeIndexFile idx] else [])
      ++ [truncMapFile, writeMapFile m]
  match budget with
  | none => (true, steps.foldl (fun s f => f s) fs)
  | some k =>
    (decide (steps.length ≤ k), (steps.take k).foldl (fun s f => f s) fs)

/-- convert.py `convert_and_store_photo`, lines 157-219: the enrollment
core once the face vector is in hand.  Mirrors the source control flow:
load the id map; create a fresh temporary index; if an old structure file
exists, load it and run the copy loop (a load failure resets the maps and
keeps the empty temp index, a copy failure resets the maps and keeps the
partially filled temp index); reuse the user's slot id or allocate
`get_n_items()` of the in-progress rebuild; `add_item` the new vector
(raising on a length mismatch, which the outer except turns into a False
return with nothing persisted); update the map; save. -/
def convert_core (budget : Option Nat) (st : PersistedState) (u : String)
    (v : Vec) : Bool × PersistedState :=
  let idMap0 := load_id_map st
  let base : List (Nat × String) × AnnoyIndex :=
    match st.indexFile with
    | FileState.good old =>
      match copyOld old idMap0 u with
      | (t, true) => (idMap0, t)
      | (t, false) => ([], t)
    | FileState.corrupt => ([], newAnnoy VECTOR_DIMENSION METRIC)
    | FileState.absent => (idMap0, newAnnoy VECTOR_DIMENSION METRIC)
  let annoy_id := (keyToSlot base.1 u).getD base.2.nItems
  if v.length = base.2.dim then
    save_annoy_index_and_map budget st (base.2.addItem annoy_id v)
      (mapSet base.1 annoy_id u)
  else (false, st)

/-- Characters of the basename: everything after the last path
separator, as in `os.path.basename` on a POSIX path. -/
def basenameChars (cs : List Char) : List Char :=
  (cs.reverse.takeWhile (fun c => c != '/')).reverse

/-- Stem of `os.path.splitext`: drop the extension at the last dot,
except when every character before that dot is itself a dot (then the
whole name is the stem, e.g. for dotfiles). -/
def splitextStemChars (cs : List Char) : List Char :=
  match cs.reverse.dropWhile (fun c => c != '.') with
  | [] => cs
  | _ :: beforeRev =>
    if beforeRev.all (fun c => c == '.') then cs else beforeRev.reverse

/-- convert.py line 89: `os.path.splitext(os.path.basename(image_path))[0]`. -/
def user_id_of_path (p : String) : String :=
  String.mk (splitextStemChars (basenameChars p.data))

/-- convert.py lines 92-95: the numpy seed derived from the user id.
`hashF` stands for Python's `abs(hash(·))`, which is salted per process
(PYTHONHASHSEED); a run of the program fixes one such function. -/
def seed_val (hashF : String → Nat) (uid : String) : Nat :=
  if uid = "" then 0 else hashF uid % (2 ^ 32 - 1)

/-- convert.py `extract_face_embedding` (lines 82-100): seed numpy's
generator with `seed_val` and draw the 128-component vector.  `rand`
stands for `np.random.seed` followed by `np.random.rand(128).tolist()`,
a fixed deterministic function of the seed within numpy. -/
def extract_face_embedding (hashF : String → Nat) (rand : Nat → Vec)
    (image_path : String) : Vec :=
  rand (seed_val hashF (user_id_of_path image_path))

/-- convert.py `convert_and_store_photo` (lines 145-223): derive the user
id from the filename, bail out if the photo file is missing, extract the
simulated embedding and run the enrollment core. -/
def convert_and_store_photo (budget : Option Nat) (hashF : String → Nat)
    (rand : Nat → Vec) (photoExists : Bool) (st : PersistedState)
    (image_filename : String) : Bool × PersistedState :=
  let user_id := String.mk (splitextStemChars image_filename.data)
  let image_path := "data_foto/" ++ image_filename
  if photoExists then
    convert_core budget st user_id (extract_face_embedding hashF rand image_path)
  else (false, st)

end Convert

namespace App

/-- app.py: `VECTOR_DIMENSION = 512`. -/
def VECTOR_DIMENSION : Nat := 512

/-- app.py line 148: `SIMILARITY_THRESHOLD = 0.6`. -/
def SIMILARITY_THRESHOLD : ℚ := 3 / 5

/-- app.py line 32: the allowed upload extensions. -/
def ALLOWED_EXTENSIONS : List String :=
  ["png", "jpg", "jpeg", "gif", "webp", "bmp", "tiff"]

/-- Characters strictly after the last dot, or `none` when the string has
no dot: `filename.rsplit(".", 1)[1]` guarded by `"." in filename`. -/
def afterLastDot (cs : List Char) : Option (List Char) :=
  let extRev := cs.reverse.takeWhile (fun c => c != '.')
  if extRev.length = cs.length then none else some extRev.reverse

/-- app.py `allowed_file` (lines 47-49): the filename contains a dot and
its lowercased last extension is in the allowed set. -/
def allowed_file (f : String) : Bool :=
  match afterLastDot f.data with
  | some ext => ALLOWED_EXTENSIONS.contains (String.mk (ext.map Char.toLower))
  | none => false

/-- werkzeug's `secure_filename`, an external sanitizer whose transform is
irrelevant to every claim here; modelled as the identity. -/
def secure_filename (s : String) : String := s

/-- app.py `load_annoy_index_and_map` (lines 102-117): if the structure
file exists, load it and then open and parse the map file, any exception
yielding the (None, None) failure; a missing structure file also yields
the failure. -/
def load_annoy_index_and_map (st : PersistedState) :
    Option (AnnoyIndex × List (Nat × String)) :=
  match st.indexFile with
  | FileState.good idx =>
    match st.mapFile with
    | FileState.good m => some (idx, m)
    | _ => none
  | FileState.corrupt => none
  | FileState.absent => none

/-- app.py lines 169-174, the Matcher: convert the raw angular distance d
to a similarity via the capped-square formula and compare it against the
threshold.  Returns (similarity, matched). -/
def matcher_decide (d t : ℚ) : ℚ × Bool :=
  let capped_distance_sq := min (d ^ 2) 2
  let similarity := 1 - capped_distance_sq / 2
  (similarity, decide (similarity ≥ t))

/-- The local matching variables of `upload_photo` (lines 150-183) after
the nearest-neighbor block has run. -/
structure MatchVars where
  matched_user_id : Option String
  highest_similarity : ℚ
  matched_annoy_id : Option Nat
  raw_distance : Option ℚ
deriving DecidableEq

/-- app.py lines 155-183: if the index has items, take the engine's
nearest neighbor (an external oracle, `nns`), record its raw distance,
convert to similarity and, at or above threshold, resolve the user id
through the map (a miss leaves `matched_user_id` as None while the
similarity fields are still set).  An empty index, or an empty neighbor
list, leaves everything at its initial value. -/
def match_block (idx : AnnoyIndex) (m : List (Nat × String))
    (nns : Option (Nat × ℚ)) : MatchVars :=
  if 0 < idx.nItems then
    match nns with
    | some (closest_annoy_id, closest_distance) =>
      let md := matcher_decide closest_distance SIMILARITY_THRESHOLD
      if md.2 then
        ⟨lookupSlot m closest_annoy_id, md.1, some closest_annoy_id,
          some closest_distance⟩
      else ⟨none, 0, none, some closest_distance⟩
    | none => ⟨none, 0, none, none⟩
  else ⟨none, 0, none, none⟩

/-- The JSON responses `upload_photo` can return, one constructor per
return statement, carrying the non-constant fields. -/
inductive UploadResponse where
  | badRequestNoPart
  | badRequestNoFile
  | badRequestNoFace
  | serviceUnavailable
  | matchedProfile (user_id name : String) (face_id_in_annoy : Nat)
      (similarity_score : ℚ) (raw_annoy_distance : ℚ)
  | matchedNoProfile (user_id : String) (similarity_score : ℚ)
  | notMatched (uploaded_filename : String) (highest_similarity_found : ℚ)
      (raw_annoy_distance_found : Option ℚ)
  | uploadError
deriving DecidableEq

/-- The HTTP status code attached to each `upload_photo` return. -/
def statusCode : UploadResponse → Nat
  | UploadResponse.badRequestNoPart => 400
  | UploadResponse.badRequestNoFile => 400
  | UploadResponse.badRequestNoFace => 400
  | UploadResponse.serviceUnavailable => 503
  | UploadResponse.matchedProfile _ _ _ _ _ => 200
  | UploadResponse.matchedNoProfile _ _ => 404
  | UploadResponse.notMatched _ _ _ => 404
  | UploadResponse.uploadError => 500

/-- Whether a response is the generic 404 no-match return of line 216. -/
def UploadResponse.isNoMatchReturn : UploadResponse → Bool
  | UploadResponse.notMatched _ _ _ => true
  | _ => false

/-- Result of one `upload_photo` request together with the state of the
uploads folder: whether `file.save(filepath)` ran, and whether the saved
file still exists when the response is returned. -/
structure UploadOutcome where
  response : UploadResponse
  fileWasSaved : Bool
  fileExistsAtReturn : Bool
deriving DecidableEq

/-- app.py `upload_photo` (lines 120-225).  External collaborators enter
as parameters: `hasPhotoPart` and `fname` describe the request,
`embedOf` is the outcome of `get_face_embedding` on the saved file,
`nns` the outcome of `get_nns_by_vector`, and `profileOf` the SQLite
profile lookup.  The saved upload is deleted (lines 136-137, 143-144,
186-187) before every response that follows the save. -/
def upload_photo (st : PersistedState) (hasPhotoPart : Bool) (fname : String)
    (embedOf : Option Vec) (nns : Option (Nat × ℚ))
    (profileOf : String → Option (String × String)) : UploadOutcome :=
  if hasPhotoPart = false then ⟨UploadResponse.badRequestNoPart, false, false⟩
  else if fname = "" then ⟨UploadResponse.badRequestNoFile, false, false⟩
  else if allowed_file fname then
    let filename := secure_filename fname
    match embedOf with
    | none => ⟨UploadResponse.badRequestNoFace, true, false⟩
    | some _ =>
      match load_annoy_index_and_map st with
      | none => ⟨UploadResponse.serviceUnavailable, true, false⟩
      | some (idx, m) =>
        let mv := match_block idx m nns
        match mv.matched_user_id with
        | some uid =>
          match profileOf uid with
          | some prof =>
            ⟨UploadResponse.matchedProfile prof.1 prof.2
                (mv.matched_annoy_id.getD 0) mv.highest_similarity
                (mv.raw_distance.getD 0), true, false⟩
          | none =>
            ⟨UploadResponse.matchedNoProfile uid mv.highest_similarity,
              true, false⟩
        | none =>
          ⟨UploadResponse.notMatched filename mv.highest_similarity
              mv.raw_distance, true, false⟩
  else ⟨UploadResponse.uploadError, false, false⟩

end App

namespace Cli

/-- app-command-line.py: `FACE_MATCH_THRESHOLD = 0.6`. -/
def FACE_MATCH_THRESHOLD : ℚ := 3 / 5

/-- app-command-line.py lines 154-162: the similarity percentage assigned
to a raw Euclidean distance — scaled distance-to-threshold slack clamped
to [0, 100] below the threshold, and 0 at or above it. -/
def similarity_pct (d : ℚ) : ℚ :=
  if d < FACE_MATCH_THRESHOLD then
    min 100 (max 0 ((FACE_MATCH_THRESHOLD - d) / FACE_MATCH_THRESHOLD * 100))
  else 0

/-- One record of `identified_faces` (lines 169-174), without the box
coordinates; `distance` is `none` while still at `float("inf")`. -/
structure FaceInfo where
  name : String
  distance : Option ℚ
  similarity_percentage : ℚ
deriving DecidableEq

/-- app-command-line.py `identify_face_in_frame`, lines 135-174, for one
detected face: with a non-empty index, ask the engine for the nearest
neighbor (oracle `nns`) and either resolve the name below threshold or
report the above-threshold label; an empty index reports the distinct
"Database Kosong" label. -/
def identify_one (numItems : Nat) (nns : Option (Nat × ℚ))
    (mapping : List (Nat × String)) : FaceInfo :=
  if 0 < numItems then
    match nns with
    | some (matched_id, match_distance) =>
      if match_distance < FACE_MATCH_THRESHOLD then
        ⟨(lookupSlot mapping matched_id).getD "ID Tidak Dikenal (Error)",
          some match_distance, similarity_pct match_distance⟩
      else ⟨"Tidak Dikenal (Jarak > Threshold)", some match_distance, 0⟩
    | none => ⟨"Tidak Dikenal", none, 0⟩
  else ⟨"Database Kosong", none, 0⟩

end Cli

/-- A two-entry index fixture used by the concrete witnesses below:
users A and B enrolled at slots 0 and 1 with distinct 128-vectors. -/
def sampleOld : AnnoyIndex :=
  ⟨Convert.VECTOR_DIMENSION, Convert.METRIC,
    [(0, List.replicate 128 (2 : ℚ)), (1, List.replicate 128 (3 : ℚ))]⟩

/-- The id map matching `sampleOld`. -/
def sampleMap : List (Nat × String) := [(0, "A"), (1, "B")]

/-- Persisted state holding `sampleOld` and `sampleMap`. -/
def sampleState : PersistedState :=
  ⟨FileState.good sampleOld, FileState.good sampleMap⟩

/-- An empty 512-dimensional index fixture for the app.py scenarios. -/
def emptyIndex512 : AnnoyIndex := ⟨App.VECTOR_DIMENSION, "angular", []⟩

/-- Persisted state with an empty index and an empty map: loadable, but
zero items are enrolled. -/
def stEmpty : PersistedState := ⟨FileState.good emptyIndex512, FileState.good []⟩

/-- A one-item 512-dimensional index fixture: user A at slot 0. -/
def oneItem512 : AnnoyIndex :=
  ⟨App.VECTOR_DIMENSION, "angular", [(0, List.replicate 512 (0 : ℚ))]⟩

/-- Persisted state with the one-item index and its map. -/
def stOne : PersistedState := ⟨FileState.good oneItem512, FileState.good [(0, "A")]⟩

/-! Helper lemmas about the association-list and index primitives. -/

theorem nItems_addItem (idx : AnnoyIndex) (i : Nat) (v : Vec) :
    (idx.addItem i v).nItems = max (i + 1) idx.nItems := rfl

theorem lookupSlot_mem {α : Type} {l : List (Nat × α)} {i : Nat} {v : α}
    (h : lookupSlot l i = some v) : (i, v) ∈ l := by
  induction l with
  | nil => simp [lookupSlot] at h
  | cons p rest ih =>
    rw [lookupSlot] at h
    split at h
    · next heq =>
      injection h with h2
      subst h2
      have hp : p = (i, p.2) := by
        rw [← heq]
      rw [← hp]
      exact List.mem_cons_self p rest
    · exact List.mem_cons_of_mem _ (ih h)

theorem nodup_fst_eq {m : List (Nat × String)} (hnd : (m.map Prod.fst).Nodup)
    {p q : Nat × String} (hp : p ∈ m) (hq : q ∈ m) (hfst : p.1 = q.1) :
    p = q := by
  induction m with
  | nil => cases hp
  | cons r rest ih =>
    rw [List.map_cons, List.nodup_cons] at hnd
    obtain ⟨hr, hnd2⟩ := hnd
    rcases List.mem_cons.mp hp with hp1 | hp2
    · rcases List.mem_cons.mp hq with hq1 | hq2
      · rw [hp1, hq1]
      · exfalso
        apply hr
        rw [hp1] at hfst
        rw [hfst]
        exact List.mem_map_of_mem Prod.fst hq2
    · rcases List.mem_cons.mp hq with hq1 | hq2
      · exfalso
        apply hr
        rw [hq1] at hfst
        rw [← hfst]
        exact List.mem_map_of_mem Prod.fst hp2
      · exact ih hnd2 hp2 hq2

theorem keyToSlot_mem {m : List (Nat × String)} {u : String} {a : Nat}
    (h : keyToSlot m u = some a) : (a, u) ∈ m := by
  induction m with
  | nil => simp [keyToSlot] at h
  | cons p rest ih =>
    rw [keyToSlot] at h
    cases hr : keyToSlot rest u with
    | some s =>
      simp only [hr] at h
      injection h with h2
      subst h2
      exact List.mem_cons_of_mem _ (ih hr)
    | none =>
      simp only [hr] at h
      split at h
      · next hk =>
        injection h with h2
        subst h2
        have hp : p = (p.1, u) := by
          rw [← hk]
        rw [← hp]
        exact List.mem_cons_self p rest
      · cases h

theorem keyToSlot_eq_none {m : List (Nat × String)} {u : String}
    (h : keyToSlot m u = none) : ∀ p ∈ m, p.2 ≠ u := by
  induction m with
  | nil => intro p hp; cases hp
  | cons q rest ih =>
    rw [keyToSlot] at h
    cases hr : keyToSlot rest u with
    | some s => simp [hr] at h
    | none =>
      simp only [hr] at h
      split at h
      · cases h
      · next hq =>
        intro p hp
        rcases List.mem_cons.mp hp with rfl | hp2
        · exact hq
        · exact ih hr p hp2

theorem keyToSlot_append (m : List (Nat × String)) (a : Nat) (u : String) :
    keyToSlot (m ++ [(a, u)]) u = some a := by
  induction m with
  | nil => simp [keyToSlot]
  | cons p rest ih => rw [List.cons_append, keyToSlot, ih]

theorem map_update_eq_self {s : Nat} {k : String} :
    ∀ m : List (Nat × String), (∀ p ∈ m, p.1 = s → p = (s, k)) →
      m.map (fun p => if p.1 = s then (s, k) else p) = m := by
  intro m
  induction m with
  | nil => intro _; rfl
  | cons q rest ih =>
    intro hall
    rw [List.map_cons, ih (fun p hp => hall p (List.mem_cons_of_mem _ hp))]
    by_cases hq : q.1 = s
    · rw [if_pos hq, ← hall q (List.mem_cons_self q rest) hq]
    · rw [if_neg hq]

theorem mapSet_eq_self {m : List (Nat × String)} {s : Nat} {k : String}
    (hall : ∀ p ∈ m, p.1 = s → p = (s, k)) (hmem : (s, k) ∈ m) :
    mapSet m s k = m := by
  unfold mapSet
  rw [if_pos (List.any_eq_true.mpr ⟨(s, k), hmem, by simp⟩)]
  exact map_update_eq_self m hall

theorem mapSet_mem_self (m : List (Nat × String)) (s : Nat) (k : String) :
    (s, k) ∈ mapSet m s k := by
  unfold mapSet
  split
  · next h =>
    rcases List.any_eq_true.mp h with ⟨q, hq, hqs⟩
    refine List.mem_map.mpr ⟨q, hq, ?_⟩
    rw [if_pos (by simpa using hqs)]
  · exact List.mem_append.mpr (Or.inr (by simp))

theorem mapSet_entries (m : List (Nat × String)) (s : Nat) (k : String) :
    ∀ p ∈ mapSet m s k, p.1 = s → p = (s, k) := by
  intro p hp hps
  unfold mapSet at hp
  split at hp
  · rcases List.mem_map.mp hp with ⟨q, hq, rfl⟩
    by_cases hqs : q.1 = s
    · rw [if_pos hqs]
    · rw [if_neg hqs] at hps ⊢
      exact absurd hps hqs
  · next hany =>
    rcases List.mem_append.mp hp with h1 | h2
    · exact absurd (List.any_eq_true.mpr ⟨p, h1, by simpa using hps⟩) hany
    · simpa using h2

theorem mapSet_mapSet (m : List (Nat × String)) (s : Nat) (k : String) :
    mapSet (mapSet m s k) s k = mapSet m s k :=
  mapSet_eq_self (mapSet_entries m s k) (mapSet_mem_self m s k)

namespace Convert

theorem getItemVector_length (idx : AnnoyIndex)
    (hlen : ∀ p ∈ idx.items, (p.2 : Vec).length = idx.dim) (i : Nat) :
    (idx.getItemVector i).length = idx.dim := by
  unfold AnnoyIndex.getItemVector
  cases h : lookupSlot idx.items i with
  | none => simp
  | some w =>
    simp only [Option.getD_some]
    exact hlen (i, w) (lookupSlot_mem h)

theorem copyPureFrom_dim (g : Nat → Vec) (u : String) :
    ∀ (m : List (Nat × String)) (acc : AnnoyIndex),
      (copyPureFrom g u acc m).dim = acc.dim := by
  intro m
  induction m with
  | nil => intro acc; rfl
  | cons p rest ih =>
    intro acc
    rw [copyPureFrom]
    split
    · exact ih acc
    · exact ih _

theorem copyPureFrom_nItems (g : Nat → Vec) (u : String) :
    ∀ (m : List (Nat × String)) (acc : AnnoyIndex),
      (copyPureFrom g u acc m).nItems = slotBound u acc.nItems m := by
  intro m
  induction m with
  | nil => intro acc; rfl
  | cons p rest ih =>
    intro acc
    rw [copyPureFrom, slotBound]
    split
    · exact ih acc
    · exact ih _

theorem slotBound_le (u : String) :
    ∀ (m : List (Nat × String)) (n : Nat), n ≤ slotBound u n m := by
  intro m
  induction m with
  | nil => intro n; simp [slotBound]
  | cons p rest ih =>
    intro n
    rw [slotBound]
    split
    · exact ih n
    · exact le_trans (le_max_right _ _) (ih _)

theorem slotBound_lt {u : String} {s : Nat} {k : String} :
    ∀ {m : List (Nat × String)}, (s, k) ∈ m → k ≠ u →
      ∀ n : Nat, s < slotBound u n m := by
  intro m
  induction m with
  | nil => intro h; cases h
  | cons p rest ih =>
    intro hmem hne n
    rw [slotBound]
    rcases List.mem_cons.mp hmem with rfl | h2
    · rw [if_neg hne]
      exact Nat.lt_of_lt_of_le (Nat.lt_of_lt_of_le (Nat.lt_succ_self s)
        (le_max_left _ _)) (slotBound_le u rest _)
    · split
      · exact ih h2 hne n
      · exact ih h2 hne _

theorem copyPureFrom_lookup_not_mem (g : Nat → Vec) (u : String) {s : Nat} :
    ∀ (m : List (Nat × String)) (acc : AnnoyIndex), (∀ p ∈ m, p.1 ≠ s) →
      lookupSlot (copyPureFrom g u acc m).items s = lookupSlot acc.items s := by
  intro m
  induction m with
  | nil => intro acc _; rfl
  | cons p rest ih =>
    intro acc h
    rw [copyPureFrom]
    split
    · exact ih acc (fun q hq => h q (List.mem_cons_of_mem _ hq))
    · rw [ih _ (fun q hq => h q (List.mem_cons_of_mem _ hq))]
      show lookupSlot ((p.1, g p.1) :: acc.items) s = lookupSlot acc.items s
      rw [lookupSlot, if_neg (h p (List.mem_cons_self p rest))]

theorem copyPureFrom_lookup_mem (g : Nat → Vec) (u : String) :
    ∀ {m : List (Nat × String)} {s : Nat} {k : String},
      (m.map Prod.fst).Nodup → (s, k) ∈ m → k ≠ u →
      ∀ acc : AnnoyIndex,
        lookupSlot (copyPureFrom g u acc m).items s = some (g s) := by
  intro m
  induction m with
  | nil => intro s k _ hmem; cases hmem
  | cons p rest ih =>
    intro s k hnd hmem hne acc
    rw [List.map_cons, List.nodup_cons] at hnd
    obtain ⟨hp1, hnd2⟩ := hnd
    rw [copyPureFrom]
    rcases List.mem_cons.mp hmem with heq | h2
    · subst heq
      rw [if_neg hne]
      rw [copyPureFrom_lookup_not_mem g u rest _ (fun q hq hqs => hp1 (by
        show s ∈ rest.map Prod.fst
        rw [← hqs]
        exact List.mem_map_of_mem Prod.fst hq))]
      show lookupSlot ((s, g s) :: acc.items) s = some (g s)
      rw [lookupSlot, if_pos rfl]
    · split
      · exact ih hnd2 h2 hne acc
      · exact ih hnd2 h2 hne _

theorem copyPureFrom_items_length (g : Nat → Vec) (u : String)
    (hg : ∀ i, (g i).length = VECTOR_DIMENSION) :
    ∀ (m : List (Nat × String)) (acc : AnnoyIndex),
      (∀ p ∈ acc.items, (p.2 : Vec).length = VECTOR_DIMENSION) →
      ∀ p ∈ (copyPureFrom g u acc m).items,
        (p.2 : Vec).length = VECTOR_DIMENSION := by
  intro m
  induction m with
  | nil => intro acc hacc; exact hacc
  | cons p rest ih =>
    intro acc hacc
    rw [copyPureFrom]
    split
    · exact ih acc hacc
    · refine ih _ ?_
      intro q hq
      rcases List.mem_cons.mp hq with rfl | h2
      · exact hg p.1
      · exact hacc q h2

theorem copyOld_eq (old : AnnoyIndex) (u : String)
    (hlen : ∀ p ∈ old.items, (p.2 : Vec).length = old.dim) :
    ∀ (m : List (Nat × String)) (acc : AnnoyIndex), acc.dim = old.dim →
      m.foldl (copyStep old u) (acc, true) =
        (copyPureFrom old.getItemVector u acc m, true) := by
  intro m
  induction m with
  | nil => intro acc _; rfl
  | cons p rest ih =>
    intro acc hacc
    rw [List.foldl_cons, copyPureFrom]
    by_cases hpu : p.2 = u
    · rw [if_pos hpu]
      have hstep : copyStep old u (acc, true) p = (acc, true) := by
        simp [copyStep, hpu]
      rw [hstep]
      exact ih acc hacc
    · rw [if_neg hpu]
      have hglen : (old.getItemVector p.1).length = acc.dim := by
        rw [hacc]
        exact getItemVector_length old hlen p.1
      have hstep : copyStep old u (acc, true) p =
          (acc.addItem p.1 (old.getItemVector p.1), true) := by
        simp [copyStep, hpu, hglen]
      rw [hstep]
      exact ih _ hacc

theorem copyOld_good (old : AnnoyIndex) (m : List (Nat × String)) (u : String)
    (hdim : old.dim = VECTOR_DIMENSION)
    (hlen : ∀ p ∈ old.items, (p.2 : Vec).length = old.dim) :
    copyOld old m u = (copyPure old m u, true) := by
  unfold copyOld copyPure
  exact copyOld_eq old u hlen m (newAnnoy VECTOR_DIMENSION METRIC) hdim.symm

theorem copyPure_dim (old : AnnoyIndex) (m : List (Nat × String)) (u : String) :
    (copyPure old m u).dim = VECTOR_DIMENSION :=
  copyPureFrom_dim old.getItemVector u m (newAnnoy VECTOR_DIMENSION METRIC)

theorem copyPure_nItems (old : AnnoyIndex) (m : List (Nat × String)) (u : String) :
    (copyPure old m u).nItems = slotBound u 0 m :=
  copyPureFrom_nItems old.getItemVector u m (newAnnoy VECTOR_DIMENSION METRIC)

theorem slotBound_append (u : String) (l1 l2 : List (Nat × String)) :
    ∀ n : Nat, slotBound u n (l1 ++ l2) = slotBound u (slotBound u n l1) l2 := by
  induction l1 with
  | nil => intro n; rfl
  | cons p rest ih =>
    intro n
    simp only [List.cons_append, slotBound]
    split
    · exact ih n
    · exact ih _

theorem copyFold_dim (old : AnnoyIndex) (u : String) :
    ∀ (m : List (Nat × String)) (acc : AnnoyIndex × Bool),
      (m.foldl (copyStep old u) acc).1.dim = acc.1.dim := by
  intro m
  induction m with
  | nil => intro acc; rfl
  | cons p rest ih =>
    intro acc
    rw [List.foldl_cons, ih (copyStep old u acc p)]
    unfold copyStep
    split
    · rfl
    · split
      · rfl
      · split
        · rfl
        · rfl

theorem copyOld_dim (old : AnnoyIndex) (m : List (Nat × String)) (u : String) :
    (copyOld old m u).1.dim = VECTOR_DIMENSION :=
  copyFold_dim old u m (newAnnoy VECTOR_DIMENSION METRIC, true)

theorem save_budget_fail (fs : PersistedState) (idx : AnnoyIndex)
    (m : List (Nat × String)) (k : Nat) (hpos : 0 < idx.nItems) (hk : k ≤ 2) :
    (save_annoy_index_and_map (some k) fs idx m).1 = false := by
  simp [save_annoy_index_and_map, hpos]
  omega

theorem save_budget_zero (fs : PersistedState) (idx : AnnoyIndex)
    (m : List (Nat × String)) :
    (save_annoy_index_and_map (some 0) fs idx m).2 = fs := by
  simp [save_annoy_index_and_map]

theorem save_none_pos (fs : PersistedState) (idx : AnnoyIndex)
    (m : List (Nat × String)) (h : 0 < idx.nItems) :
    save_annoy_index_and_map none fs idx m =
      (true, ⟨FileState.good idx, FileState.good m⟩) := by
  cases fs with
  | mk ifile mfile =>
    simp [save_annoy_index_and_map, h, writeIndexFile, truncMapFile, writeMapFile]

theorem convert_core_good (old : AnnoyIndex) (m : List (Nat × String))
    (u : String) (v : Vec)
    (hdim : old.dim = VECTOR_DIMENSION)
    (hlen : ∀ p ∈ old.items, (p.2 : Vec).length = old.dim)
    (hv : v.length = VECTOR_DIMENSION) :
    convert_core none ⟨FileState.good old, FileState.good m⟩ u v =
      (true,
        ⟨FileState.good ((copyPure old m u).addItem
            ((keyToSlot m u).getD (copyPure old m u).nItems) v),
          FileState.good
            (mapSet m ((keyToSlot m u).getD (copyPure old m u).nItems) u)⟩) := by
  have hc := copyOld_good old m u hdim hlen
  have hpos : 0 < ((copyPure old m u).addItem
      ((keyToSlot m u).getD (copyPure old m u).nItems) v).nItems :=
    Nat.lt_of_lt_of_le (Nat.succ_pos _) (le_max_left _ _)
  unfold convert_core
  simp only [load_id_map, hc]
  rw [if_pos (hv.trans (copyPure_dim old m u).symm)]
  exact save_none_pos _ _ _ hpos

end Convert

/-! Claim theorems. -/

/-- Claim C1: rebuild pass-through.  For every rebuild triggered by
enrolling key u into an existing (well-formed) index, every (slot, key)
pair of the identity map with key different from u keeps, at the same
slot of the new structure, a vector equal component-for-component to the
old structure's vector at that slot. -/
theorem rebuild_passthrough
    (old : AnnoyIndex) (m : List (Nat × String)) (u : String) (v : Vec)
    (s : Nat) (k : String)
    (hdim : old.dim = Convert.VECTOR_DIMENSION)
    (hlen : ∀ p ∈ old.items, (p.2 : Vec).length = old.dim)
    (hnodup : (m.map Prod.fst).Nodup)
    (hv : v.length = Convert.VECTOR_DIMENSION)
    (hmem : (s, k) ∈ m) (hne : k ≠ u) :
    ∃ newIdx newMap,
      Convert.convert_core none ⟨FileState.good old, FileState.good m⟩ u v =
        (true, ⟨FileState.good newIdx, FileState.good newMap⟩) ∧
      newIdx.getItemVector s = old.getItemVector s := by
  refine ⟨_, _, Convert.convert_core_good old m u v hdim hlen hv, ?_⟩
  have has : (keyToSlot m u).getD (Convert.copyPure old m u).nItems ≠ s := by
    cases hk : keyToSlot m u with
    | some a =>
      rw [Option.getD_some]
      intro he
      have hau : (a, u) ∈ m := keyToSlot_mem hk
      have hpq : (a, u) = (s, k) := nodup_fst_eq hnodup hau hmem he
      exact hne (congrArg Prod.snd hpq).symm
    | none =>
      rw [Option.getD_none]
      have hlt : s < (Convert.copyPure old m u).nItems := by
        rw [Convert.copyPure_nItems]
        exact Convert.slotBound_lt hmem hne 0
      intro he
      rw [he] at hlt
      exact lt_irrefl s hlt
  show (lookupSlot (((keyToSlot m u).getD (Convert.copyPure old m u).nItems, v)
      :: (Convert.copyPure old m u).items) s).getD _ = _
  rw [lookupSlot, if_neg has, Convert.copyPure,
    Convert.copyPureFrom_lookup_mem old.getItemVector u hnodup hmem hne,
    Option.getD_some]

/-- Witness for C1: in the concrete state with A and B enrolled at slots
0 and 1, enrolling C leaves A's vector at slot 0 unchanged. -/
theorem rebuild_passthrough_witness :
    (sampleOld.dim = Convert.VECTOR_DIMENSION ∧
      (∀ p ∈ sampleOld.items, (p.2 : Vec).length = sampleOld.dim) ∧
      (sampleMap.map Prod.fst).Nodup ∧
      (List.replicate 128 (5 : ℚ)).length = Convert.VECTOR_DIMENSION ∧
      (0, "A") ∈ sampleMap ∧ "A" ≠ "C") ∧
    ∃ newIdx newMap,
      Convert.convert_core none sampleState "C" (List.replicate 128 (5 : ℚ)) =
        (true, ⟨FileState.good newIdx, FileState.good newMap⟩) ∧
      newIdx.getItemVector 0 = sampleOld.getItemVector 0 :=
  ⟨⟨rfl, by decide, by decide, by decide, by decide, by decide⟩,
    rebuild_passthrough sampleOld sampleMap "C" (List.replicate 128 (5 : ℚ))
      0 "A" rfl (by decide) (by decide) (by decide) (by decide) (by decide)⟩

/-- Claim C2: enrollment is idempotent in slot usage.  Enrolling (u, v)
twice from a well-formed persisted state produces the same `get_n_items`
count and literally the same id map as enrolling it once; a key with an
existing slot reuses exactly that slot, and a fresh key is assigned the
`get_n_items` count of the in-progress rebuild (the temporary index after
the pass-through copy). -/
theorem enroll_twice_eq_enroll_once
    (old : AnnoyIndex) (m : List (Nat × String)) (u : String) (v : Vec)
    (hdim : old.dim = Convert.VECTOR_DIMENSION)
    (hlen : ∀ p ∈ old.items, (p.2 : Vec).length = old.dim)
    (hnodup : (m.map Prod.fst).Nodup)
    (hv : v.length = Convert.VECTOR_DIMENSION) :
    ∃ idx1 idx2 m1,
      Convert.convert_core none ⟨FileState.good old, FileState.good m⟩ u v =
        (true, ⟨FileState.good idx1, FileState.good m1⟩) ∧
      Convert.convert_core none ⟨FileState.good idx1, FileState.good m1⟩ u v =
        (true, ⟨FileState.good idx2, FileState.good m1⟩) ∧
      idx2.nItems = idx1.nItems ∧
      (∀ s0, keyToSlot m u = some s0 → keyToSlot m1 u = some s0) ∧
      (keyToSlot m u = none →
        keyToSlot m1 u = some (Convert.copyOld old m u).1.nItems) := by
  obtain ⟨aid, haid⟩ :
      ∃ a, (keyToSlot m u).getD (Convert.copyPure old m u).nItems = a := ⟨_, rfl⟩
  obtain ⟨idx1, hidx1⟩ :
      ∃ i, (Convert.copyPure old m u).addItem aid v = i := ⟨_, rfl⟩
  obtain ⟨m1, hm1⟩ : ∃ x, mapSet m aid u = x := ⟨_, rfl⟩
  have h1 := Convert.convert_core_good old m u v hdim hlen hv
  rw [haid, hidx1, hm1] at h1
  have hform : (mapSet m aid u = m ∧ keyToSlot m u = some aid) ∨
      (mapSet m aid u = m ++ [(aid, u)] ∧ keyToSlot m u = none) := by
    cases hk : keyToSlot m u with
    | some a =>
      have ha : aid = a := by rw [← haid, hk, Option.getD_some]
      subst ha
      have hau : (aid, u) ∈ m := keyToSlot_mem hk
      exact Or.inl
        ⟨mapSet_eq_self (fun p hp hps => nodup_fst_eq hnodup hp hau hps) hau, rfl⟩
    | none =>
      have hnu := keyToSlot_eq_none hk
      have haid2 : aid = Convert.slotBound u 0 m := by
        rw [← haid, hk, Option.getD_none, Convert.copyPure_nItems]
      have hnotin : (m.any fun p => p.1 == aid) = false := by
        refine List.any_eq_false.mpr ?_
        intro p hp
        simp only [beq_iff_eq]
        rw [haid2]
        exact Nat.ne_of_lt (Convert.slotBound_lt hp (hnu p hp) 0)
      refine Or.inr ⟨?_, rfl⟩
      unfold mapSet
      rw [hnotin]
      simp
  have hA : keyToSlot m1 u = some aid := by
    rw [← hm1]
    rcases hform with ⟨he, hk⟩ | ⟨he, _⟩
    · rw [he]; exact hk
    · rw [he]; exact keyToSlot_append m aid u
  have hslot : Convert.slotBound u 0 m1 = Convert.slotBound u 0 m := by
    rw [← hm1]
    rcases hform with ⟨he, _⟩ | ⟨he, _⟩
    · rw [he]
    · rw [he, Convert.slotBound_append]
      simp [Convert.slotBound]
  have hm2 : mapSet m1 aid u = m1 := by
    rw [← hm1]
    exact mapSet_mapSet m aid u
  have hg : ∀ i, (old.getItemVector i).length = Convert.VECTOR_DIMENSION := by
    intro i
    rw [← hdim]
    exact Convert.getItemVector_length old hlen i
  have hdim1 : idx1.dim = Convert.VECTOR_DIMENSION := by
    rw [← hidx1]
    exact Convert.copyPure_dim old m u
  have hlen1 : ∀ p ∈ idx1.items, (p.2 : Vec).length = idx1.dim := by
    rw [← hidx1]
    intro p hp
    have hd1 : ((Convert.copyPure old m u).addItem aid v).dim =
        Convert.VECTOR_DIMENSION := Convert.copyPure_dim old m u
    rw [hd1]
    rcases List.mem_cons.mp hp with rfl | h2
    · exact hv
    · exact Convert.copyPureFrom_items_length old.getItemVector u hg m
        (newAnnoy Convert.VECTOR_DIMENSION Convert.METRIC)
        (fun q hq => absurd hq (List.not_mem_nil q)) p h2
  have h2 := Convert.convert_core_good idx1 m1 u v hdim1 hlen1 hv
  rw [hA] at h2
  simp only [Option.getD_some] at h2
  rw [hm2] at h2
  have hnn : ((Convert.copyPure idx1 m1 u).addItem aid v).nItems = idx1.nItems := by
    rw [← hidx1, nItems_addItem, nItems_addItem, Convert.copyPure_nItems,
      Convert.copyPure_nItems, hslot]
  refine ⟨idx1, (Convert.copyPure idx1 m1 u).addItem aid v, m1, h1, h2, hnn, ?_, ?_⟩
  · intro s0 hs0
    rw [hA]
    congr 1
    rw [← haid, hs0, Option.getD_some]
  · intro hk
    rw [hA]
    congr 1
    rw [Convert.copyOld_good old m u hdim hlen, ← haid, hk, Option.getD_none]


/-- Witness for C2: re-enrolling A twice into the concrete two-user state
gives the same item count and the same map as enrolling once. -/
theorem enroll_twice_witness :
    (sampleOld.dim = Convert.VECTOR_DIMENSION ∧
      (∀ p ∈ sampleOld.items, (p.2 : Vec).length = sampleOld.dim) ∧
      (sampleMap.map Prod.fst).Nodup ∧
      (List.replicate 128 (5 : ℚ)).length = Convert.VECTOR_DIMENSION) ∧
    ∃ idx1 idx2 m1,
      Convert.convert_core none ⟨FileState.good sampleOld, FileState.good sampleMap⟩
          "A" (List.replicate 128 (5 : ℚ)) =
        (true, ⟨FileState.good idx1, FileState.good m1⟩) ∧
      Convert.convert_core none ⟨FileState.good idx1, FileState.good m1⟩
          "A" (List.replicate 128 (5 : ℚ)) =
        (true, ⟨FileState.good idx2, FileState.good m1⟩) ∧
      idx2.nItems = idx1.nItems ∧
      (∀ s0, keyToSlot sampleMap "A" = some s0 → keyToSlot m1 "A" = some s0) ∧
      (keyToSlot sampleMap "A" = none →
        keyToSlot m1 "A" = some (Convert.copyOld sampleOld sampleMap "A").1.nItems) :=
  ⟨⟨rfl, by decide, by decide, by decide⟩,
    enroll_twice_eq_enroll_once sampleOld sampleMap "A"
      (List.replicate 128 (5 : ℚ)) rfl (by decide) (by decide) (by decide)⟩


/-- Counterexample for claim C4: there is no distinct DimensionMismatch
error rejected at the API boundary before any rebuild.  Enrolling a
1-component vector into the two-user state returns the bare generic
failure (False, unchanged state) — exactly the same observable outcome as
a save failure with a correctly sized vector — and the pass-through copy
has already added both existing items to the temporary index before the
wrong-length add_item raises. -/
theorem dimension_mismatch_counterexample :
    Convert.convert_core none sampleState "D" [(1 : ℚ)] = (false, sampleState) ∧
    (Convert.copyOld sampleOld sampleMap "D").1.items.length = 2 ∧
    Convert.convert_core (some 0) sampleState "D" (List.replicate 128 (1 : ℚ)) =
      (false, sampleState) :=
  ⟨by decide, by decide, by decide⟩

/-- Claim C4 as amended: enrolling an embedding whose length differs from
the configured dimension fails — the engine raises inside the rebuild and
the except block returns a generic failure, not a distinct
DimensionMismatch — and the persisted structure and map are left exactly
as they were. -/
theorem dimension_mismatch_amended (budget : Option Nat) (st : PersistedState)
    (u : String) (v : Vec) (hvlen : v.length ≠ Convert.VECTOR_DIMENSION) :
    Convert.convert_core budget st u v = (false, st) := by
  obtain ⟨ifile, mfile⟩ := st
  cases ifile with
  | absent =>
    simp only [Convert.convert_core, newAnnoy]
    rw [if_neg hvlen]
  | corrupt =>
    simp only [Convert.convert_core, newAnnoy]
    rw [if_neg hvlen]
  | good old =>
    cases hc : Convert.copyOld old
        (Convert.load_id_map ⟨FileState.good old, mfile⟩) u with
    | mk t b =>
      have ht : t.dim = Convert.VECTOR_DIMENSION := by
        have hd := Convert.copyOld_dim old
          (Convert.load_id_map ⟨FileState.good old, mfile⟩) u
        rw [hc] at hd
        exact hd
      cases b
      · simp only [Convert.convert_core, hc]
        rw [if_neg (fun h => hvlen (h.trans ht))]
      · simp only [Convert.convert_core, hc]
        rw [if_neg (fun h => hvlen (h.trans ht))]

/-- Witness for the amended C4: a 1-component vector is rejected with the
generic failure and the empty persisted state is untouched. -/
theorem dimension_mismatch_amended_witness :
    ([(1 : ℚ)].length ≠ Convert.VECTOR_DIMENSION) ∧
    Convert.convert_core none ⟨FileState.absent, FileState.absent⟩ "E" [(1 : ℚ)] =
      (false, ⟨FileState.absent, FileState.absent⟩) :=
  ⟨by decide,
    dimension_mismatch_amended none ⟨FileState.absent, FileState.absent⟩ "E"
      [(1 : ℚ)] (by decide)⟩

/-- Case analysis of the enrollment core used by the save-failure claim:
either it fails before touching the disk, or it hands a non-empty built
index to `save_annoy_index_and_map`. -/
theorem convert_core_budget (b : Option Nat) (st : PersistedState)
    (u : String) (v : Vec) :
    Convert.convert_core b st u v = (false, st) ∨
    ∃ idx m2, 0 < idx.nItems ∧
      Convert.convert_core b st u v =
        Convert.save_annoy_index_and_map b st idx m2 := by
  obtain ⟨ifile, mfile⟩ := st
  cases ifile with
  | absent =>
    simp only [Convert.convert_core, newAnnoy]
    split
    · exact Or.inr ⟨_, _,
        Nat.lt_of_lt_of_le (Nat.succ_pos _) (le_max_left _ _), rfl⟩
    · exact Or.inl rfl
  | corrupt =>
    simp only [Convert.convert_core, newAnnoy]
    split
    · exact Or.inr ⟨_, _,
        Nat.lt_of_lt_of_le (Nat.succ_pos _) (le_max_left _ _), rfl⟩
    · exact Or.inl rfl
  | good old =>
    cases hc : Convert.copyOld old
        (Convert.load_id_map ⟨FileState.good old, mfile⟩) u with
    | mk t b2 =>
      cases b2
      · simp only [Convert.convert_core, hc]
        split
        · exact Or.inr ⟨_, _,
            Nat.lt_of_lt_of_le (Nat.succ_pos _) (le_max_left _ _), rfl⟩
        · exact Or.inl rfl
      · simp only [Convert.convert_core, hc]
        split
        · exact Or.inr ⟨_, _,
            Nat.lt_of_lt_of_le (Nat.succ_pos _) (le_max_left _ _), rfl⟩
        · exact Or.inl rfl

/-- Counterexample for claim C5: persistence is not all-or-nothing.  With
a failure injected after two primitive disk effects (structure written,
map file truncated by `open(..., "w")`), enroll reports failure but the
new structure has replaced the old one and the map file is left corrupt —
the previously persisted pair is not preserved. -/
theorem save_not_atomic_counterexample :
    (Convert.convert_core (some 2) sampleState "C"
        (List.replicate 128 (1 : ℚ))).1 = false ∧
    (Convert.convert_core (some 2) sampleState "C"
        (List.replicate 128 (1 : ℚ))).2.indexFile ≠ sampleState.indexFile ∧
    (Convert.convert_core (some 2) sampleState "C"
        (List.replicate 128 (1 : ℚ))).2.mapFile = FileState.corrupt :=
  ⟨by decide, by decide, by decide⟩

/-- Claim C5 as amended: the save step is a sequence of direct overwrites
with no temp-and-rename, so a mid-way failure can leave a mixed state
(see the counterexample); what does hold is that every mid-way save
failure is reported to the caller as enrollment not taking effect
(`convert_and_store_photo` returns False), and a failure before the first
disk effect leaves the persisted pair exactly as it was. -/
theorem save_failure_amended (st : PersistedState) (u : String) (v : Vec)
    (k : Nat) (hk : k ≤ 2) :
    (Convert.convert_core (some k) st u v).1 = false ∧
    (Convert.convert_core (some 0) st u v).2 = st := by
  constructor
  · rcases convert_core_budget (some k) st u v with h | ⟨idx, m2, hpos, h⟩
    · rw [h]
    · rw [h]
      exact Convert.save_budget_fail st idx m2 k hpos hk
  · rcases convert_core_budget (some 0) st u v with h | ⟨idx, m2, _, h⟩
    · rw [h]
    · rw [h]
      exact Convert.save_budget_zero st idx m2

/-- Witness for the amended C5: in the concrete two-user state, a failure
after one disk effect is reported as False, and a failure before any disk
effect leaves the state untouched. -/
theorem save_failure_amended_witness :
    (1 : Nat) ≤ 2 ∧
    ((Convert.convert_core (some 1) sampleState "C"
        (List.replicate 128 (1 : ℚ))).1 = false ∧
      (Convert.convert_core (some 0) sampleState "C"
        (List.replicate 128 (1 : ℚ))).2 = sampleState) :=
  ⟨by decide,
    save_failure_amended sampleState "C" (List.replicate 128 (1 : ℚ)) 1 (by decide)⟩


/-- Claim C6: for the angular metric the Matcher similarity equals
1 - min(d^2, 2)/2, lies in [0, 1], and the decision is matched exactly
when the similarity reaches the threshold. -/
theorem matcher_angular_similarity (d t : ℚ) :
    (App.matcher_decide d t).1 = 1 - min (d ^ 2) 2 / 2 ∧
    0 ≤ (App.matcher_decide d t).1 ∧
    (App.matcher_decide d t).1 ≤ 1 ∧
    ((App.matcher_decide d t).2 = true ↔ (App.matcher_decide d t).1 ≥ t) := by
  refine ⟨rfl, ?_, ?_, ?_⟩
  · show (0 : ℚ) ≤ 1 - min (d ^ 2) 2 / 2
    have h := min_le_right (d ^ 2) (2 : ℚ)
    linarith
  · show (1 : ℚ) - min (d ^ 2) 2 / 2 ≤ 1
    have h0 : (0 : ℚ) ≤ min (d ^ 2) 2 := le_min (sq_nonneg d) (by norm_num)
    linarith
  · simp [App.matcher_decide]

/-- Claim C7: matcher monotonicity.  For fixed thresholds, a smaller
non-negative raw distance never yields a smaller similarity, both for the
angular conversion of app.py and for the Euclidean percentage of
app-command-line.py. -/
theorem matcher_monotone (d1 d2 : ℚ) (h0 : 0 ≤ d1) (h12 : d1 < d2) :
    (App.matcher_decide d2 App.SIMILARITY_THRESHOLD).1 ≤
      (App.matcher_decide d1 App.SIMILARITY_THRESHOLD).1 ∧
    Cli.similarity_pct d2 ≤ Cli.similarity_pct d1 := by
  constructor
  · show (1 : ℚ) - min (d2 ^ 2) 2 / 2 ≤ 1 - min (d1 ^ 2) 2 / 2
    have hsq : d1 ^ 2 ≤ d2 ^ 2 := by
      have h := mul_self_le_mul_self h0 (le_of_lt h12)
      simpa [pow_two] using h
    have hmin : min (d1 ^ 2) 2 ≤ min (d2 ^ 2) 2 := min_le_min hsq (le_refl 2)
    linarith
  · unfold Cli.similarity_pct Cli.FACE_MATCH_THRESHOLD
    by_cases h2 : d2 < 3 / 5
    · have h1 : d1 < 3 / 5 := lt_trans h12 h2
      rw [if_pos h1, if_pos h2]
      have key : (3 / 5 - d2) / (3 / 5) * 100 ≤ (3 / 5 - d1) / (3 / 5) * 100 := by
        apply mul_le_mul_of_nonneg_right _ (by norm_num : (0 : ℚ) ≤ 100)
        exact (div_le_div_iff_of_pos_right (by norm_num : (0 : ℚ) < 3 / 5)).mpr (by linarith)
      exact min_le_min (le_refl 100) (max_le_max (le_refl 0) key)
    · rw [if_neg h2]
      by_cases h1 : d1 < 3 / 5
      · rw [if_pos h1]
        exact le_min (by norm_num) (le_max_left 0 _)
      · rw [if_neg h1]

/-- Witness for C7 at the concrete distances 0 and 1. -/
theorem matcher_monotone_witness :
    ((0 : ℚ) ≤ 0 ∧ (0 : ℚ) < 1) ∧
    ((App.matcher_decide 1 App.SIMILARITY_THRESHOLD).1 ≤
        (App.matcher_decide 0 App.SIMILARITY_THRESHOLD).1 ∧
      Cli.similarity_pct 1 ≤ Cli.similarity_pct 0) :=
  ⟨⟨le_refl 0, by norm_num⟩, matcher_monotone 0 1 (le_refl 0) (by norm_num)⟩


/-- Counterexample for claim C3: a query against an index with zero
enrolled items does not fail with a distinct EmptyIndex error.  app.py
returns the very same 404 no-match response (same message, same status
code) as a below-threshold query; the two differ only in the
raw_annoy_distance_found field being null instead of a number. -/
theorem empty_index_response_counterexample :
    (App.upload_photo stEmpty true "q.png" (some []) none
        (fun _ => none)).response =
      App.UploadResponse.notMatched "q.png" 0 none ∧
    (App.upload_photo stOne true "q.png" (some []) (some (0, 2))
        (fun _ => none)).response =
      App.UploadResponse.notMatched "q.png" 0 (some 2) ∧
    (App.UploadResponse.notMatched "q.png" 0 none).isNoMatchReturn = true ∧
    App.statusCode (App.UploadResponse.notMatched "q.png" 0 none) =
      App.statusCode (App.UploadResponse.notMatched "q.png" 0 (some 2)) := by
  refine ⟨by decide, ?_, by decide, by decide⟩
  have hmd : App.matcher_decide 2 App.SIMILARITY_THRESHOLD = (0, false) := by
    unfold App.matcher_decide App.SIMILARITY_THRESHOLD
    refine Prod.ext ?_ ?_
    · show (1 : ℚ) - min (2 ^ 2) 2 / 2 = 0
      norm_num
    · show decide ((1 : ℚ) - min (2 ^ 2) 2 / 2 ≥ 3 / 5) = false
      rw [decide_eq_false_iff_not]
      norm_num
  have hn : 0 < oneItem512.nItems := by decide
  have hmb : App.match_block oneItem512 [(0, "A")] (some (0, 2)) =
      ⟨none, 0, none, some 2⟩ := by
    unfold App.match_block
    rw [if_pos hn]
    simp only [hmd]
    rfl
  have hload : App.load_annoy_index_and_map stOne =
      some (oneItem512, [(0, "A")]) := by decide
  unfold App.upload_photo
  rw [if_neg (by decide : ¬(true = false)),
    if_neg (by decide : ¬("q.png" = "")),
    if_pos (by decide : App.allowed_file "q.png" = true)]
  simp only [hload, hmb]
  rfl


/-- Claim C3 as amended: in app.py a query against a loadable index with
zero enrolled items returns the generic 404 no-match response (with
highest similarity 0 and a null raw distance) rather than a distinct
EmptyIndex error; only app-command-line.py distinguishes the empty case,
with the "Database Kosong" label. -/
theorem empty_index_response_amended
    (st : PersistedState) (idx : AnnoyIndex) (m : List (Nat × String))
    (fname : String) (emb : Vec) (nns : Option (Nat × ℚ))
    (prof : String → Option (String × String))
    (hload : App.load_annoy_index_and_map st = some (idx, m))
    (hempty : idx.nItems = 0)
    (hfn : fname ≠ "") (hext : App.allowed_file fname = true) :
    (App.upload_photo st true fname (some emb) nns prof).response =
      App.UploadResponse.notMatched (App.secure_filename fname) 0 none ∧
    App.statusCode
      (App.upload_photo st true fname (some emb) nns prof).response = 404 ∧
    (∀ (nns2 : Option (Nat × ℚ)) (mapping : List (Nat × String)),
      Cli.identify_one 0 nns2 mapping = ⟨"Database Kosong", none, 0⟩) := by
  have hmb : App.match_block idx m nns = ⟨none, 0, none, none⟩ := by
    unfold App.match_block
    rw [if_neg (by rw [hempty]; exact lt_irrefl 0)]
  have hresp : App.upload_photo st true fname (some emb) nns prof =
      ⟨App.UploadResponse.notMatched (App.secure_filename fname) 0 none,
        true, false⟩ := by
    unfold App.upload_photo
    rw [if_neg (by decide : ¬(true = false)), if_neg hfn, if_pos hext]
    simp only [hload, hmb]
  rw [hresp]
  exact ⟨rfl, rfl, fun nns2 mapping => rfl⟩

/-- Witness for the amended C3 at the concrete empty persisted state. -/
theorem empty_index_response_amended_witness :
    (App.load_annoy_index_and_map stEmpty = some (emptyIndex512, []) ∧
      emptyIndex512.nItems = 0 ∧ "q.png" ≠ "" ∧
      App.allowed_file "q.png" = true) ∧
    ((App.upload_photo stEmpty true "q.png" (some []) none
        (fun _ => none)).response =
      App.UploadResponse.notMatched (App.secure_filename "q.png") 0 none ∧
    App.statusCode (App.upload_photo stEmpty true "q.png" (some []) none
        (fun _ => none)).response = 404 ∧
    (∀ (nns2 : Option (Nat × ℚ)) (mapping : List (Nat × String)),
      Cli.identify_one 0 nns2 mapping = ⟨"Database Kosong", none, 0⟩)) :=
  ⟨⟨by decide, by decide, by decide, by decide⟩,
    empty_index_response_amended stEmpty emptyIndex512 [] "q.png" [] none
      (fun _ => none) (by decide) (by decide) (by decide) (by decide)⟩

/-- Counterexample for claim C8: in the corrupt state where only the map
file is deleted while the structure file remains, app.py's load fails
(returns the None pair) and upload_photo refuses the request with the
503 "system not ready" response — not an empty, queryable-but-empty
index. -/
theorem missing_map_refusal_counterexample :
    App.load_annoy_index_and_map
        ⟨FileState.good oneItem512, FileState.absent⟩ = none ∧
    (App.upload_photo ⟨FileState.good oneItem512, FileState.absent⟩ true
        "q.png" (some []) none (fun _ => none)).response =
      App.UploadResponse.serviceUnavailable ∧
    App.statusCode App.UploadResponse.serviceUnavailable = 503 :=
  ⟨by decide, by decide, by decide⟩

/-- Claim C8 as amended: when the map file is absent or unreadable,
convert.py's load_id_map does return an empty map; but app.py's
load_annoy_index_and_map fails whenever the structure file is present and
the map file is missing or corrupt, and upload_photo then refuses to
serve with 503 instead of serving an empty index. -/
theorem missing_map_amended (st : PersistedState)
    (hmap : st.mapFile = FileState.absent ∨ st.mapFile = FileState.corrupt) :
    Convert.load_id_map st = [] ∧
    (∀ idx, st.indexFile = FileState.good idx →
      App.load_annoy_index_and_map st = none) ∧
    (∀ (idx : AnnoyIndex) (fname : String) (emb : Vec)
        (nns : Option (Nat × ℚ)) (prof : String → Option (String × String)),
      st.indexFile = FileState.good idx → fname ≠ "" →
      App.allowed_file fname = true →
      (App.upload_photo st true fname (some emb) nns prof).response =
        App.UploadResponse.serviceUnavailable) := by
  obtain ⟨ifile, mfile⟩ := st
  have hm : mfile = FileState.absent ∨ mfile = FileState.corrupt := hmap
  rcases hm with rfl | rfl
  · refine ⟨rfl, ?_, ?_⟩
    · intro idx hidx
      have h2 : ifile = FileState.good idx := hidx
      subst h2
      rfl
    · intro idx fname emb nns prof hidx hfn hext
      have h2 : ifile = FileState.good idx := hidx
      subst h2
      unfold App.upload_photo
      rw [if_neg (by decide : ¬(true = false)), if_neg hfn, if_pos hext]
      rfl
  · refine ⟨rfl, ?_, ?_⟩
    · intro idx hidx
      have h2 : ifile = FileState.good idx := hidx
      subst h2
      rfl
    · intro idx fname emb nns prof hidx hfn hext
      have h2 : ifile = FileState.good idx := hidx
      subst h2
      unfold App.upload_photo
      rw [if_neg (by decide : ¬(true = false)), if_neg hfn, if_pos hext]
      rfl

/-- Witness for the amended C8 at the state with the structure file
present and the map file deleted. -/
theorem missing_map_amended_witness :
    ((⟨FileState.good oneItem512, FileState.absent⟩ : PersistedState).mapFile =
        FileState.absent ∨
      (⟨FileState.good oneItem512, FileState.absent⟩ : PersistedState).mapFile =
        FileState.corrupt) ∧
    (Convert.load_id_map ⟨FileState.good oneItem512, FileState.absent⟩ = [] ∧
      (∀ idx, (⟨FileState.good oneItem512, FileState.absent⟩ :
          PersistedState).indexFile = FileState.good idx →
        App.load_annoy_index_and_map
          ⟨FileState.good oneItem512, FileState.absent⟩ = none) ∧
      (∀ (idx : AnnoyIndex) (fname : String) (emb : Vec)
          (nns : Option (Nat × ℚ)) (prof : String → Option (String × String)),
        (⟨FileState.good oneItem512, FileState.absent⟩ :
          PersistedState).indexFile = FileState.good idx → fname ≠ "" →
        App.allowed_file fname = true →
        (App.upload_photo ⟨FileState.good oneItem512, FileState.absent⟩ true
            fname (some emb) nns prof).response =
          App.UploadResponse.serviceUnavailable)) :=
  ⟨Or.inl rfl,
    missing_map_amended ⟨FileState.good oneItem512, FileState.absent⟩ (Or.inl rfl)⟩

/-- Claim C9 (code bug support): within one process run — one fixed hash
salt `hashF` and one numpy generator `rand` — `extract_face_embedding` is
a function of the basename-without-extension only; but the numpy seed is
`abs(hash(user_id)) % (2^32 - 1)` and Python's string hash is salted per
process, so two runs can derive different seeds for the same file (shown
here for "Ronaldo"), contradicting the cross-run determinism that the
claim and the function's own docstring assert. -/
theorem extract_embedding_seed_dependence
    (hashF : String → Nat) (rand : Nat → Vec) (p1 p2 : String)
    (h : Convert.user_id_of_path p1 = Convert.user_id_of_path p2) :
    Convert.extract_face_embedding hashF rand p1 =
      Convert.extract_face_embedding hashF rand p2 ∧
    ∃ h1 h2 : String → Nat,
      Convert.seed_val h1 "Ronaldo" ≠ Convert.seed_val h2 "Ronaldo" := by
  constructor
  · unfold Convert.extract_face_embedding
    rw [h]
  · refine ⟨fun _ => 1, fun _ => 2, ?_⟩
    decide

/-- Witness for C9: two paths with basename stem "Ronaldo" give the same
embedding within one run. -/
theorem extract_embedding_seed_dependence_witness :
    Convert.user_id_of_path "data_foto/Ronaldo.jpg" =
      Convert.user_id_of_path "Ronaldo.png" ∧
    (Convert.extract_face_embedding (fun s => s.length) (fun n => [(n : ℚ)])
        "data_foto/Ronaldo.jpg" =
      Convert.extract_face_embedding (fun s => s.length) (fun n => [(n : ℚ)])
        "Ronaldo.png" ∧
    ∃ h1 h2 : String → Nat,
      Convert.seed_val h1 "Ronaldo" ≠ Convert.seed_val h2 "Ronaldo") :=
  ⟨by decide,
    extract_embedding_seed_dependence (fun s => s.length) (fun n => [(n : ℚ)])
      "data_foto/Ronaldo.jpg" "Ronaldo.png" (by decide)⟩

/-- Claim C10: on every upload_photo path that follows the file save —
embedding failure, index not ready, match with or without a profile, and
no match — the saved upload is removed before the response is returned,
so the uploads folder keeps no residue of the request. -/
theorem uploads_no_residue (st : PersistedState) (hasPart : Bool)
    (fname : String) (emb : Option Vec) (nns : Option (Nat × ℚ))
    (prof : String → Option (String × String))
    (_hsaved : (App.upload_photo st hasPart fname emb nns prof).fileWasSaved =
      true) :
    (App.upload_photo st hasPart fname emb nns prof).fileExistsAtReturn =
      false := by
  unfold App.upload_photo
  dsimp only
  repeat' first
    | rfl
    | split

/-- Witness for C10: a request whose embedding extraction fails has been
saved and is gone again by the time the 400 response returns. -/
theorem uploads_no_residue_witness :
    (App.upload_photo stEmpty true "q.png" none none
        (fun _ => none)).fileWasSaved = true ∧
    (App.upload_photo stEmpty true "q.png" none none
        (fun _ => none)).fileExistsAtReturn = false :=
  ⟨by decide,
    uploads_no_residue stEmpty true "q.png" none none (fun _ => none)
      (by decide)⟩

end FaceRec
